import Mathlib

/-!
Verification of the SerialSnooper repository (src/Snooper.py).

The program relays bytes between two serial endpoints `s0` and `s1`
(`Snooper.__doit`, lines 82-109), drives a pty-based simulation with a
timer (`Simulation.runit`, lines 119-135), and wires both up from the
command line (`__main__`, lines 137-187).  The definitions below are a
shallow embedding of that code: the environment (select results, bytes
produced by reads, byte counts accepted by writes, wall-clock readings)
is supplied as oracle data, and the loop bodies are translated
statement by statement.
-/

namespace SerialSnooper

/-- A byte as delivered by `serial.Serial.read` / `os.read`. -/
abbrev Byte := Nat

/-- The two serial endpoints `s0` and `s1` opened in `Snooper.runit`. -/
inductive Endpoint where
  | s0 : Endpoint
  | s1 : Endpoint
deriving DecidableEq, Repr

/-- The mutable state of `Snooper.__doit`: the two direction buffers
`buffer0` (pending bytes to be written to `s0`) and `buffer1` (pending
bytes to be written to `s1`), lines 84-85. -/
structure RelayState where
  buffer0 : List Byte
  buffer1 : List Byte
deriving DecidableEq, Repr

/-- Both buffers start empty (`bytearray()`, lines 84-85). -/
def initState : RelayState := ⟨[], []⟩

/-- The write-interest list handed to `select.select` (lines 89-91):
`wlist = []`, then `s0` is appended when `len(buffer0)` is truthy and
`s1` when `len(buffer1)` is truthy. -/
def mkWlist (st : RelayState) : List Endpoint :=
  (if st.buffer0.length ≠ 0 then [Endpoint.s0] else []) ++
  (if st.buffer1.length ≠ 0 then [Endpoint.s1] else [])

/-- The read-interest list of every `select.select` call is the fixed
list `[s0, s1]` (line 92). -/
def rlistQuery : List Endpoint := [Endpoint.s0, Endpoint.s1]

/-- The readiness result `select.select` returns for one iteration:
which endpoints are in the returned `rlist` and `wlist`. -/
structure SelectResult where
  r0 : Bool
  r1 : Bool
  w0 : Bool
  w1 : Bool
deriving DecidableEq, Repr

/-- The environment data consumed by one iteration of the relay loop:
the select outcome, the bytes each `s.read(8192)` returns, and the
count each `s.write(...)` reports. -/
structure IterOracle where
  sel : SelectResult
  read0 : List Byte
  read1 : List Byte
  acc0 : Nat
  acc1 : Nat
deriving DecidableEq, Repr

/-- Processing of one read result (lines 94-101): `c = s.read(8192)`;
when `len(c) == 0` the loop body is skipped (`continue`), otherwise `c`
is appended to the opposite buffer. -/
def procRead (buf c : List Byte) : List Byte :=
  if c.length = 0 then buf else buf ++ c

/-- `buffer1` after the read phase of one iteration: bytes read from
`s0` are appended to `buffer1` (lines 96-97). -/
def readPhase1 (st : RelayState) (o : IterOracle) : List Byte :=
  if o.sel.r0 then procRead st.buffer1 o.read0 else st.buffer1

/-- `buffer0` after the read phase of one iteration: bytes read from
`s1` are appended to `buffer0` (lines 99-100). -/
def readPhase0 (st : RelayState) (o : IterOracle) : List Byte :=
  if o.sel.r1 then procRead st.buffer0 o.read1 else st.buffer0

/-- One write call and its buffer update (lines 104-105 and 107-108):
`n = s.write(buffer)` puts the first `n` buffered bytes on the wire and
`buffer = buffer[n:]` keeps the rest. Returns (bytes written, new
buffer). -/
def writeFlush (buf : List Byte) (n : Nat) : List Byte × List Byte :=
  (buf.take n, buf.drop n)

/-- The write phase for one endpoint: the write happens only when the
endpoint is in the `wlist` returned by select (line 102). -/
def writePhase (flag : Bool) (buf : List Byte) (n : Nat) : List Byte × List Byte :=
  if flag then writeFlush buf n else ([], buf)

/-- The bytes an iteration sends to each endpoint. -/
structure StepOut where
  wrote0 : List Byte
  wrote1 : List Byte
deriving DecidableEq, Repr

/-- One full iteration of the `while True` loop of `Snooper.__doit`
(lines 88-109): read phase over `rlist`, then write phase over the
returned `wlist`; the write sees the bytes appended by this
iteration's reads. -/
def relayStep (st : RelayState) (o : IterOracle) : RelayState × StepOut :=
  (⟨(writePhase o.sel.w0 (readPhase0 st o) o.acc0).2,
    (writePhase o.sel.w1 (readPhase1 st o) o.acc1).2⟩,
   ⟨(writePhase o.sel.w0 (readPhase0 st o) o.acc0).1,
    (writePhase o.sel.w1 (readPhase1 st o) o.acc1).1⟩)

/-- Running the relay loop over a finite list of iteration oracles:
final state, concatenated bytes written to `s0`, concatenated bytes
written to `s1`. -/
def relayRun (st : RelayState) : List IterOracle → RelayState × List Byte × List Byte
  | [] => (st, [], [])
  | o :: os =>
    ((relayRun (relayStep st o).1 os).1,
     (relayStep st o).2.wrote0 ++ (relayRun (relayStep st o).1 os).2.1,
     (relayStep st o).2.wrote1 ++ (relayRun (relayStep st o).1 os).2.2)

/-- The bytes one iteration reads from `s0` (empty when `s0` was not
readable). -/
def readsOf0 (o : IterOracle) : List Byte :=
  if o.sel.r0 then o.read0 else []

/-- The bytes one iteration reads from `s1`. -/
def readsOf1 (o : IterOracle) : List Byte :=
  if o.sel.r1 then o.read1 else []

/-- Concatenation of all bytes read from `s0` over a trace. -/
def reads0 : List IterOracle → List Byte
  | [] => []
  | o :: os => readsOf0 o ++ reads0 os

/-- Concatenation of all bytes read from `s1` over a trace. -/
def reads1 : List IterOracle → List Byte
  | [] => []
  | o :: os => readsOf1 o ++ reads1 os

lemma procRead_eq (buf c : List Byte) : procRead buf c = buf ++ c := by
  unfold procRead
  by_cases h : c.length = 0
  · simp [h, List.length_eq_zero.mp h]
  · simp [h]

lemma readPhase1_eq (st : RelayState) (o : IterOracle) :
    readPhase1 st o = st.buffer1 ++ readsOf0 o := by
  unfold readPhase1 readsOf0
  by_cases h : o.sel.r0 <;> simp [h, procRead_eq]

lemma readPhase0_eq (st : RelayState) (o : IterOracle) :
    readPhase0 st o = st.buffer0 ++ readsOf1 o := by
  unfold readPhase0 readsOf1
  by_cases h : o.sel.r1 <;> simp [h, procRead_eq]

lemma writePhase_append (flag : Bool) (buf : List Byte) (n : Nat) :
    (writePhase flag buf n).1 ++ (writePhase flag buf n).2 = buf := by
  cases flag <;> simp [writePhase, writeFlush]

lemma relayStep_wrote0_append (st : RelayState) (o : IterOracle) :
    (relayStep st o).2.wrote0 ++ (relayStep st o).1.buffer0 =
      st.buffer0 ++ readsOf1 o := by
  simp [relayStep, writePhase_append, readPhase0_eq]

lemma relayStep_wrote1_append (st : RelayState) (o : IterOracle) :
    (relayStep st o).2.wrote1 ++ (relayStep st o).1.buffer1 =
      st.buffer1 ++ readsOf0 o := by
  simp [relayStep, writePhase_append, readPhase1_eq]

/-- Core invariant of the relay loop: over any finite trace, the bytes
already written to an endpoint followed by the bytes still buffered
for it are exactly the initial buffer followed by everything read from
the opposite endpoint, in order. -/
lemma relayRun_inv (os : List IterOracle) : ∀ st : RelayState,
    (relayRun st os).2.1 ++ (relayRun st os).1.buffer0 = st.buffer0 ++ reads1 os ∧
    (relayRun st os).2.2 ++ (relayRun st os).1.buffer1 = st.buffer1 ++ reads0 os := by
  induction os with
  | nil => intro st; simp [relayRun, reads0, reads1]
  | cons o os ih =>
    intro st
    have h0 := (ih (relayStep st o).1).1
    have h1 := (ih (relayStep st o).1).2
    constructor
    · calc (relayRun st (o :: os)).2.1 ++ (relayRun st (o :: os)).1.buffer0
          = (relayStep st o).2.wrote0 ++
            ((relayRun (relayStep st o).1 os).2.1 ++
             (relayRun (relayStep st o).1 os).1.buffer0) := by
            simp [relayRun]
        _ = (relayStep st o).2.wrote0 ++ ((relayStep st o).1.buffer0 ++ reads1 os) := by
            rw [h0]
        _ = ((relayStep st o).2.wrote0 ++ (relayStep st o).1.buffer0) ++ reads1 os := by
            simp
        _ = (st.buffer0 ++ readsOf1 o) ++ reads1 os := by
            rw [relayStep_wrote0_append]
        _ = st.buffer0 ++ reads1 (o :: os) := by
            simp [reads1]
    · calc (relayRun st (o :: os)).2.2 ++ (relayRun st (o :: os)).1.buffer1
          = (relayStep st o).2.wrote1 ++
            ((relayRun (relayStep st o).1 os).2.2 ++
             (relayRun (relayStep st o).1 os).1.buffer1) := by
            simp [relayRun]
        _ = (relayStep st o).2.wrote1 ++ ((relayStep st o).1.buffer1 ++ reads0 os) := by
            rw [h1]
        _ = ((relayStep st o).2.wrote1 ++ (relayStep st o).1.buffer1) ++ reads0 os := by
            simp
        _ = (st.buffer1 ++ readsOf0 o) ++ reads0 os := by
            rw [relayStep_wrote1_append]
        _ = st.buffer1 ++ reads0 (o :: os) := by
            simp [reads0]

lemma mem_mkWlist_s0 (st : RelayState) :
    Endpoint.s0 ∈ mkWlist st ↔ st.buffer0 ≠ [] := by
  unfold mkWlist
  by_cases h0 : st.buffer0.length = 0
  · have hb : st.buffer0 = [] := List.length_eq_zero.mp h0
    by_cases h1 : st.buffer1.length = 0 <;> simp [h0, h1, hb]
  · have hb : st.buffer0 ≠ [] := by
      intro h
      rw [h] at h0
      simp at h0
    by_cases h1 : st.buffer1.length = 0 <;> simp [h0, h1, hb]

lemma mem_mkWlist_s1 (st : RelayState) :
    Endpoint.s1 ∈ mkWlist st ↔ st.buffer1 ≠ [] := by
  unfold mkWlist
  by_cases h1 : st.buffer1.length = 0
  · have hb : st.buffer1 = [] := List.length_eq_zero.mp h1
    by_cases h0 : st.buffer0.length = 0 <;> simp [h0, h1, hb]
  · have hb : st.buffer1 ≠ [] := by
      intro h
      rw [h] at h1
      simp at h1
    by_cases h0 : st.buffer0.length = 0 <;> simp [h0, h1, hb]

/-- C1: starting from empty buffers, once each direction buffer has
drained (the target endpoint was eventually writable often enough),
the concatenation of bytes written to `s1` equals the concatenation of
bytes read from `s0`, in order, with no duplication and no loss; and
symmetrically for the other direction. -/
theorem relay_no_loss (os : List IterOracle)
    (h0 : (relayRun initState os).1.buffer0 = [])
    (h1 : (relayRun initState os).1.buffer1 = []) :
    (relayRun initState os).2.2 = reads0 os ∧
    (relayRun initState os).2.1 = reads1 os := by
  have h := relayRun_inv os initState
  constructor
  · have h2 := h.2
    rw [h1] at h2
    simpa [initState] using h2
  · have h2 := h.1
    rw [h0] at h2
    simpa [initState] using h2

/-- A concrete three-iteration trace in which both buffers drain. -/
def demoTrace : List IterOracle :=
  [⟨⟨true, false, false, false⟩, [1, 2], [], 0, 0⟩,
   ⟨⟨false, true, false, true⟩, [], [3], 0, 2⟩,
   ⟨⟨false, false, true, false⟩, [], [], 1, 0⟩]

theorem relay_no_loss_witness :
    (relayRun initState demoTrace).2.2 = reads0 demoTrace ∧
    (relayRun initState demoTrace).2.1 = reads1 demoTrace :=
  relay_no_loss demoTrace (by decide) (by decide)

/-- C2: after any finite number of iterations from the empty start
state, each buffer is exactly the contiguous unwritten suffix of the
bytes received for its direction, in receipt order (the written prefix
followed by the buffer reproduces the receive stream, so nothing is
reordered, lost or duplicated); and a buffer is non-empty exactly when
its target endpoint appears in the write-interest list of the next
`select` call. -/
theorem relay_buffer_invariant (os : List IterOracle) :
    (relayRun initState os).2.1 ++ (relayRun initState os).1.buffer0 = reads1 os ∧
    (relayRun initState os).2.2 ++ (relayRun initState os).1.buffer1 = reads0 os ∧
    (Endpoint.s0 ∈ mkWlist (relayRun initState os).1 ↔
      (relayRun initState os).1.buffer0 ≠ []) ∧
    (Endpoint.s1 ∈ mkWlist (relayRun initState os).1 ↔
      (relayRun initState os).1.buffer1 ≠ []) := by
  have h := relayRun_inv os initState
  refine ⟨?_, ?_, mem_mkWlist_s0 _, mem_mkWlist_s1 _⟩
  · simpa [initState] using h.1
  · simpa [initState] using h.2

/-- C3: when `s1` is writable and its write accepts `n` bytes with `n`
smaller than the buffer length, the iteration sends exactly the first
`n` buffered bytes, removes exactly those, leaves the remainder
non-empty at the head of the buffer, and a later iteration that reads
more bytes appends them after the remainder (no reordering). -/
theorem relay_short_write (st : RelayState) (o o2 : IterOracle)
    (hw : o.sel.w1 = true)
    (hn : o.acc1 < (readPhase1 st o).length)
    (hw2 : o2.sel.w1 = false) :
    (relayStep st o).2.wrote1 = (readPhase1 st o).take o.acc1 ∧
    (relayStep st o).1.buffer1 = (readPhase1 st o).drop o.acc1 ∧
    (relayStep st o).2.wrote1 ++ (relayStep st o).1.buffer1 = readPhase1 st o ∧
    (relayStep st o).1.buffer1 ≠ [] ∧
    (relayStep (relayStep st o).1 o2).1.buffer1 =
      (readPhase1 st o).drop o.acc1 ++ readsOf0 o2 := by
  have hb1 : (relayStep st o).1.buffer1 = (readPhase1 st o).drop o.acc1 := by
    simp [relayStep, writePhase, hw, writeFlush]
  refine ⟨?_, hb1, ?_, ?_, ?_⟩
  · simp [relayStep, writePhase, hw, writeFlush]
  · rw [hb1]
    simp [relayStep, writePhase, hw, writeFlush]
  · rw [hb1]
    intro h
    rw [List.drop_eq_nil_iff] at h
    omega
  · simp [relayStep, writePhase, hw, hw2, writeFlush, readPhase1_eq]

/-- State for the C3 witness: three bytes pending toward `s1`. -/
def csSt : RelayState := ⟨[], [1, 2, 3]⟩

/-- Oracle for the C3 witness: `s1` writable, write accepts 2 of 3. -/
def csO : IterOracle := ⟨⟨false, false, false, true⟩, [], [], 0, 2⟩

/-- Follow-up oracle for the C3 witness: `s0` readable, nothing writable. -/
def csO2 : IterOracle := ⟨⟨true, false, false, false⟩, [9], [], 0, 0⟩

theorem relay_short_write_witness :
    (relayStep csSt csO).2.wrote1 = (readPhase1 csSt csO).take csO.acc1 ∧
    (relayStep csSt csO).1.buffer1 = (readPhase1 csSt csO).drop csO.acc1 ∧
    (relayStep csSt csO).2.wrote1 ++ (relayStep csSt csO).1.buffer1 =
      readPhase1 csSt csO ∧
    (relayStep csSt csO).1.buffer1 ≠ [] ∧
    (relayStep (relayStep csSt csO).1 csO2).1.buffer1 =
      (readPhase1 csSt csO).drop csO.acc1 ++ readsOf0 csO2 :=
  relay_short_write csSt csO csO2 (by decide) (by decide) (by decide)

/-- C4: a zero-length read is ignored: the iteration has exactly the
same effect as one in which that endpoint was not readable at all (no
bytes enter either buffer from it), the loop continues, and the
read-interest list of every `select` call is the constant `[s0, s1]`,
so the endpoint keeps being polled. -/
theorem relay_zero_read (st : RelayState) (o : IterOracle)
    (_hr : o.sel.r0 = true) (hz : o.read0 = []) :
    relayStep st o =
      relayStep st ⟨⟨false, o.sel.r1, o.sel.w0, o.sel.w1⟩, o.read0, o.read1, o.acc0, o.acc1⟩ ∧
    readPhase1 st o = st.buffer1 ∧
    Endpoint.s0 ∈ rlistQuery ∧
    rlistQuery = [Endpoint.s0, Endpoint.s1] := by
  refine ⟨?_, ?_, by decide, rfl⟩
  · simp [relayStep, readPhase1, readPhase0, hz, procRead]
  · simp [readPhase1_eq, readsOf0, hz]

/-- State for the C4 witness. -/
def czSt : RelayState := ⟨[5], [6]⟩

/-- Oracle for the C4 witness: `s0` readable but its read returns zero
bytes. -/
def czO : IterOracle := ⟨⟨true, true, false, false⟩, [], [7], 0, 0⟩

theorem relay_zero_read_witness :
    relayStep czSt czO =
      relayStep czSt ⟨⟨false, czO.sel.r1, czO.sel.w0, czO.sel.w1⟩,
        czO.read0, czO.read1, czO.acc0, czO.acc1⟩ ∧
    readPhase1 czSt czO = czSt.buffer1 ∧
    Endpoint.s0 ∈ rlistQuery ∧
    rlistQuery = [Endpoint.s0, Endpoint.s1] :=
  relay_zero_read czSt czO (by decide) (by decide)

/-- C9: no echo. Bytes written to `s0` are always an in-order portion
of the bytes read from `s1` alone, and symmetrically; moreover the
`buffer0` side of a step is completely independent of what was read
from `s0` in that step. -/
theorem relay_no_echo (os : List IterOracle) :
    (∃ rest0, (relayRun initState os).2.1 ++ rest0 = reads1 os) ∧
    (∃ rest1, (relayRun initState os).2.2 ++ rest1 = reads0 os) ∧
    (∀ (st : RelayState) (o : IterOracle) (c : List Byte),
      (relayStep st ⟨o.sel, c, o.read1, o.acc0, o.acc1⟩).1.buffer0 =
        (relayStep st o).1.buffer0 ∧
      (relayStep st ⟨o.sel, c, o.read1, o.acc0, o.acc1⟩).2.wrote0 =
        (relayStep st o).2.wrote0) := by
  have h := relayRun_inv os initState
  refine ⟨⟨(relayRun initState os).1.buffer0, by simpa [initState] using h.1⟩,
    ⟨(relayRun initState os).1.buffer1, by simpa [initState] using h.2⟩, ?_⟩
  intro st o c
  constructor <;> simp [relayStep, readPhase0]

/-- C10: the buffer-removal step `buffer = buffer[n:]` after a write is
total for every reported count: the new buffer is the old one with its
first `n` bytes dropped, the removed bytes are exactly the written
prefix, a count at or above the buffer length leaves the empty buffer,
and a count of 0 leaves the buffer unchanged. -/
theorem writeFlush_total (buf : List Byte) (n k : Nat) :
    (writeFlush buf n).2 = buf.drop n ∧
    (writeFlush buf n).1 ++ (writeFlush buf n).2 = buf ∧
    (writeFlush buf (buf.length + k)).2 = [] ∧
    (writeFlush buf 0).2 = buf := by
  refine ⟨rfl, List.take_append_drop n buf, ?_, by simp [writeFlush]⟩
  simp [writeFlush, List.drop_eq_nil_of_le (Nat.le_add_right buf.length k)]

/-- State of `Simulation.runit` (lines 119-135): the current wall
clock reading (`time.time()`) and the deadline `tNext` of the next
message, in whole logical time units. -/
structure SimState where
  now : Nat
  tNext : Nat
deriving DecidableEq, Repr

/-- How one `select.select([s], [], [], tNext - time.time())` call of
`Simulation.runit` resolved: `timeout` when `rlist` came back empty
(line 128), or `recv t cost b` when a byte `b` became readable at time
`t` and handling it (`os.read(s, 1)` plus logging) finished `cost`
time units after select returned. -/
inductive SimEvent where
  | timeout : SimEvent
  | recv (t cost b : Nat) : SimEvent
deriving DecidableEq, Repr

/-- One iteration of the `while True` loop of `Simulation.runit`
(lines 126-135), idealising the timeout branch as instantaneous: on a
timeout the message is produced at time `tNext` and the deadline is
reset to production time plus `dt` (lines 129-132); on a readable
byte, one byte is read and logged and `tNext` is left untouched
(lines 134-135).  Returns the new state and the production time, if
any. -/
def simStep (dt : Nat) (st : SimState) : SimEvent → SimState × Option Nat
  | SimEvent.timeout => (⟨st.tNext, st.tNext + dt⟩, some st.tNext)
  | SimEvent.recv t cost _ => (⟨max st.now t + cost, st.tNext⟩, none)

/-- Whether an event is a possible outcome of the select call made in
state `st`: the timeout argument `tNext - time.time()` must be
non-negative (a negative value makes `select.select` raise), a timeout
needs the deadline to lie ahead, and a received byte must have been
readable no later than the deadline (either it arrived during the wait
window or it was already pending). -/
def evOk (st : SimState) : SimEvent → Bool
  | SimEvent.timeout => decide (st.now ≤ st.tNext)
  | SimEvent.recv t _ _ => decide (st.now ≤ st.tNext) && decide (t ≤ st.tNext)

/-- Running the simulation loop over a list of events: final state and
the list of message production times. -/
def simRun (dt : Nat) : SimState → List SimEvent → SimState × List Nat
  | st, [] => (st, [])
  | st, ev :: evs =>
    ((simRun dt (simStep dt st ev).1 evs).1,
     (simStep dt st ev).2.toList ++ (simRun dt (simStep dt st ev).1 evs).2)

/-- A whole event list is feasible from a start state. -/
def traceOk (dt : Nat) : SimState → List SimEvent → Bool
  | _, [] => true
  | st, ev :: evs => evOk st ev && traceOk dt (simStep dt st ev).1 evs

lemma sim_timeout_cadence (dt : Nat) : ∀ (k : Nat) (st : SimState),
    (simRun dt st (List.replicate k SimEvent.timeout)).2 =
      (List.range k).map (fun i => st.tNext + i * dt) := by
  intro k
  induction k with
  | zero => intro st; simp [simRun]
  | succ k ih =>
    intro st
    have h := ih ⟨st.tNext, st.tNext + dt⟩
    simp only [List.replicate_succ, simRun, simStep, Option.toList] at h ⊢
    rw [h, List.range_succ_eq_map]
    simp only [List.map_cons, List.map_map, Nat.zero_mul, Nat.add_zero,
      List.singleton_append, List.cons.injEq, true_and]
    apply List.map_congr_left
    intro i _
    simp [Function.comp]
    ring

/-- C5 counterexample: a feasible environment trace on which the wall
clock passes the deadline while no message has been produced.  With
`delay = 2` and the first deadline at time 2, a byte is readable
exactly at the deadline and another is still pending when select is
next called; the loop services both reads, time reaches 3 > 2, and the
production list is empty — incoming traffic has postponed message
production beyond the current deadline, contrary to the claim. -/
theorem sim_deadline_postponed :
    traceOk 2 ⟨0, 2⟩ [SimEvent.recv 2 0 65, SimEvent.recv 2 1 66] = true ∧
    (simRun 2 ⟨0, 2⟩ [SimEvent.recv 2 0 65, SimEvent.recv 2 1 66]).2 = [] ∧
    (simRun 2 ⟨0, 2⟩ [SimEvent.recv 2 0 65, SimEvent.recv 2 1 66]).1.tNext <
      (simRun 2 ⟨0, 2⟩ [SimEvent.recv 2 0 65, SimEvent.recv 2 1 66]).1.now := by
  decide

/-- C5 amended: handling a readable byte never resets the deadline and
never produces a message; a timed-out select produces the message at
the deadline and re-arms the deadline `delay` after the production; so
over any stretch with no incoming traffic the production times are
exactly `delay` apart.  However a readable byte takes precedence over
an expired deadline, so continuous incoming traffic can postpone the
next production beyond the current deadline. -/
theorem sim_deadline_behavior (dt t c b k : Nat) (st : SimState) :
    (simStep dt st (SimEvent.recv t c b)).1.tNext = st.tNext ∧
    (simStep dt st (SimEvent.recv t c b)).2 = none ∧
    (simStep dt st SimEvent.timeout).2 = some st.tNext ∧
    (simStep dt st SimEvent.timeout).1.tNext = st.tNext + dt ∧
    (simRun dt st (List.replicate k SimEvent.timeout)).2 =
      (List.range k).map (fun i => st.tNext + i * dt) :=
  ⟨rfl, rfl, rfl, rfl, sim_timeout_cadence dt k st⟩

/-- Exception values carried by the shared `err` queue. -/
abbrev Err := String

/-- Observable events of `Snooper.runit` (lines 73-80): the attempt to
open `port0`, the attempt to open `port1`, and entering the relay
loop. -/
inductive RelayEv where
  | open0 : RelayEv
  | open1 : RelayEv
  | loopEnter : RelayEv
deriving DecidableEq, Repr

/-- `Snooper.runit` (lines 73-80): `serial.Serial(port0)` is opened
first; only inside its `with` block is `serial.Serial(port1)` opened;
only inside that is `__doit` entered.  The loop has no normal exit, so
a run of the unit is summarised by the events performed and the
exception it ended with; an open failure propagates at once, with no
retry. `o0` and `o1` are the open outcomes, `loopErr` the first
read/write error the loop raises. -/
def snooperRunit (o0 o1 : Except Err Unit) (loopErr : Err) : List RelayEv × Err :=
  match o0 with
  | Except.error e => ([RelayEv.open0], e)
  | Except.ok _ =>
    match o1 with
    | Except.error e => ([RelayEv.open0, RelayEv.open1], e)
    | Except.ok _ => ([RelayEv.open0, RelayEv.open1, RelayEv.loopEnter], loopErr)

/-- `MyThread.run` (lines 58-63): the exception raised by `runit` is
caught and put on the shared error queue. -/
def myThreadRun (q : List Err) (e : Err) : List Err := q ++ [e]

/-- `__main__` line 186: `errQueue.get()` retrieves the first queued
error (blocking forever when none ever arrives). -/
def mainGet (q : List Err) : Option Err := q.head?

/-- `__main__` line 187: `raise(e)` re-raises the retrieved error; an
uncaught exception terminates the interpreter with a non-zero exit
status.  `none` models the blocked (never-exiting) case. -/
def processExit (q : List Err) : Option Nat :=
  match q.head? with
  | some _ => some 1
  | none => none

/-- C6: an error opening `port0` ends `Snooper.runit` at once —
`port1` is never opened because `port0` is opened first — and for any
outcome each open is attempted at most once (no retry); the error
propagates to `MyThread.run`, which posts it on the pending-error
queue, and the main program re-raises the first retrieved error and
exits non-zero. -/
theorem open_failure_flow (e loopErr : Err) (o0 o1 : Except Err Unit) :
    (snooperRunit (Except.error e) o1 loopErr).1 = [RelayEv.open0] ∧
    RelayEv.open1 ∉ (snooperRunit (Except.error e) o1 loopErr).1 ∧
    (snooperRunit (Except.error e) o1 loopErr).2 = e ∧
    ((snooperRunit o0 o1 loopErr).1.count RelayEv.open0 ≤ 1 ∧
     (snooperRunit o0 o1 loopErr).1.count RelayEv.open1 ≤ 1) ∧
    myThreadRun [] (snooperRunit (Except.error e) o1 loopErr).2 = [e] ∧
    mainGet [e] = some e ∧
    processExit [e] = some 1 := by
  refine ⟨rfl, ?_, rfl, ?_, rfl, rfl, rfl⟩
  · simp [snooperRunit]
  · cases o0 <;> cases o1 <;> simp [snooperRunit, List.count_cons]

/-- A Python value as argparse stores it: either the raw token string
from the command line or a Python int (the form of the default and of
the `choices` entries). -/
inductive PyVal where
  | str (s : String) : PyVal
  | int (n : Int) : PyVal
deriving DecidableEq, Repr

/-- The `choices` list of `--baud` (line 147): six Python ints. -/
def baudChoices : List PyVal :=
  [PyVal.int 1200, PyVal.int 2400, PyVal.int 4800, PyVal.int 9600,
   PyVal.int 19200, PyVal.int 115200]

/-- argparse handling of `--baud` (lines 146-148).  The option has no
`type` converter, so a supplied token stays the string it was on the
command line and is then checked for membership in `choices`; an
omitted option takes the default `9600` (a Python int), and a
non-string default is not checked against `choices`. -/
def parseBaud (tok : Option String) : Except Err PyVal :=
  match tok with
  | none => Except.ok (PyVal.int 9600)
  | some s =>
    if PyVal.str s ∈ baudChoices then Except.ok (PyVal.str s)
    else Except.error ("argument --baud: invalid choice: " ++ s)

/-- C7: the code rejects every explicitly supplied `--baud` value,
including the listed ones, because the string token is compared
against integer `choices`; omitting `--baud` yields the default 9600.
In particular `--baud 9600` fails even though 9600 is in the
enumerated set, contradicting the claim. -/
theorem baud_rejects_every_explicit_value :
    parseBaud (some "9600") =
      Except.error ("argument --baud: invalid choice: " ++ "9600") ∧
    (∀ s : String, parseBaud (some s) =
      Except.error ("argument --baud: invalid choice: " ++ s)) ∧
    parseBaud none = Except.ok (PyVal.int 9600) := by
  have hall : ∀ s : String, parseBaud (some s) =
      Except.error ("argument --baud: invalid choice: " ++ s) := by
    intro s
    have hmem : PyVal.str s ∉ baudChoices := by simp [baudChoices]
    simp [parseBaud, hmem]
  exact ⟨hall "9600", hall, rfl⟩

/-- The concurrent units `__main__` creates and starts (lines
176-184). -/
inductive UnitKind where
  | sim0 : UnitKind
  | sim1 : UnitKind
  | snooper : UnitKind
deriving DecidableEq, Repr

/-- The port/test validation and unit construction of `__main__`
(lines 164-184).  `parser.error` aborts argument handling
synchronously (it never touches the pending-error queue), modelled as
`Except.error`; a returned `Except.ok` holds the units appended to
`threads` and started.  `pathExists` is the `os.path.exists`
oracle. -/
def mainUnits (test : Bool) (port0 port1 : Option String)
    (pathExists : String → Bool) : Except Err (List UnitKind) :=
  if test = false then
    match port0 with
    | none => Except.error "--port0 is required unless --test is given"
    | some p0 =>
      match port1 with
      | none => Except.error "--port1 is required unless --test is given"
      | some p1 =>
        if pathExists p0 = false then Except.error "--port0 does not exist"
        else if pathExists p1 = false then Except.error "--port1 does not exist"
        else Except.ok [UnitKind.snooper]
  else if port0.isSome || port1.isSome then
    Except.error "--port0 and --port1 can not be specified with --test"
  else Except.ok [UnitKind.sim0, UnitKind.sim1, UnitKind.snooper]

/-- C8: giving `--test` together with an explicit `--port0` or
`--port1` makes validation fail synchronously with a parser error —
the result is on the `Except` channel, not the pending-error queue —
and no unit list is ever produced, so no relay or simulation unit is
created or started. -/
theorem test_mode_rejects_explicit_ports (port0 port1 : Option String)
    (pathExists : String → Bool) (h : port0.isSome ∨ port1.isSome) :
    mainUnits true port0 port1 pathExists =
      Except.error "--port0 and --port1 can not be specified with --test" ∧
    ∀ units, mainUnits true port0 port1 pathExists ≠ Except.ok units := by
  have hb : (port0.isSome || port1.isSome) = true := by
    rcases h with h | h <;> simp [h]
  constructor
  · simp [mainUnits, hb]
  · intro units hcon
    simp [mainUnits, hb] at hcon

theorem test_mode_rejects_explicit_ports_witness :
    mainUnits true (some "/dev/ttyUSB0") none (fun _ => true) =
      Except.error "--port0 and --port1 can not be specified with --test" ∧
    ∀ units, mainUnits true (some "/dev/ttyUSB0") none (fun _ => true) ≠
      Except.ok units :=
  test_mode_rejects_explicit_ports (some "/dev/ttyUSB0") none (fun _ => true)
    (Or.inl rfl)

end SerialSnooper
